import Mathlib

/-!
Verification development for the Gymmy exercise-tracking system.

Shallow embedding of the angle computation, smoothing, exercise hysteresis
state machine, ROM calibration engine and adaptive range resolver, translated
from `Camera_realsense.py`, `Patient_Calibration.py`,
`Patient_Calibration_Simple.py` and `main.py`.

Modelling conventions:
- Angles and coordinates are rationals.  The transcendental kernel
  `degrees(arccos(clip(cosine)))` (including the `-0.1` anti-stall shift near
  180 degrees) is abstracted as a parameter `raw : Vec3 -> Vec3 -> Rat` of the
  embedding, because its exact value is irrational; every theorem quantifies
  over it, so nothing depends on its value.  What IS modelled exactly is the
  degenerate-denominator case: when `A-vertex` or `C-vertex` has zero length,
  numpy evaluates `0.0/0.0` to NaN with a RuntimeWarning (numpy scalars never
  raise under the default error state, and `np.seterr` is not called anywhere
  in the repository), so the `except` branch of `calc_angle_3d` is not taken
  and the function returns a NaN float, not `None`.  The type `F` below is a
  float value: a finite rational or NaN, with IEEE comparison semantics
  (every comparison involving NaN is false).
- Python's `round(x, 2)` is modelled as rounding `100*x` to the nearest
  integer; exact ties (where Python rounds half to even on the binary value)
  are not exercised by any statement below.
- The per-tick state machine of `exercise_two_angles_3d` consumes the four
  angle values produced by `calc_angle_3d`; those values are supplied as
  per-tick inputs.  Frames are modelled as the list of joint names present;
  Python's `joints[name]` on an absent key raises `KeyError`, modelled as the
  `Except.error` branch.  The pause sub-loop is not modelled: every run below
  is an unpaused run.
-/

namespace Gymmy

instance {ε α : Type} [DecidableEq ε] [DecidableEq α] : DecidableEq (Except ε α) := fun a b =>
  match a, b with
  | Except.error e, Except.error f =>
      if h : e = f then isTrue (by rw [h]) else isFalse (fun hc => h (by cases hc; rfl))
  | Except.ok x, Except.ok y =>
      if h : x = y then isTrue (by rw [h]) else isFalse (fun hc => h (by cases hc; rfl))
  | Except.error _, Except.ok _ => isFalse (fun hc => by cases hc)
  | Except.ok _, Except.error _ => isFalse (fun hc => by cases hc)

/-- A Python/numpy float value as used by `calc_angle_3d`: either a finite
value (modelled as a rational) or NaN. -/
inductive F where
  | fin (q : ℚ)
  | nan
deriving DecidableEq

/-- Float subtraction: NaN propagates. -/
def fsub : F → F → F
  | F.fin a, F.fin b => F.fin (a - b)
  | _, _ => F.nan

/-- Float addition: NaN propagates. -/
def fadd : F → F → F
  | F.fin a, F.fin b => F.fin (a + b)
  | _, _ => F.nan

/-- Float multiplication: NaN propagates (no infinities arise in this code). -/
def fmul : F → F → F
  | F.fin a, F.fin b => F.fin (a * b)
  | _, _ => F.nan

/-- Float absolute value: NaN propagates. -/
def fabsF : F → F
  | F.fin a => F.fin |a|
  | F.nan => F.nan

/-- Float strict greater-than: any comparison with NaN is false (IEEE). -/
def fgt : F → F → Bool
  | F.fin a, F.fin b => decide (b < a)
  | _, _ => false

/-- A 3D point (x, y, z), as unpacked from a `Joint` object. -/
def Vec3 : Type := ℚ × ℚ × ℚ

instance : DecidableEq Vec3 := inferInstanceAs (DecidableEq (ℚ × ℚ × ℚ))

/-- Componentwise vector subtraction (`a - b` on numpy arrays). -/
def vsub (a b : Vec3) : Vec3 := (a.1 - b.1, a.2.1 - b.2.1, a.2.2 - b.2.2)

/-- Squared euclidean norm.  `np.linalg.norm v = 0` iff `normSq v = 0`, which
is the only fact about the norm the degenerate-case analysis needs. -/
def normSq (v : Vec3) : ℚ := v.1 ^ 2 + v.2.1 ^ 2 + v.2.2 ^ 2

/-- The smoothing dictionary `self.previous_angles`: slot name to last stored
(unrounded) angle value. -/
def SmoothState : Type := List (String × F)

instance : DecidableEq SmoothState := inferInstanceAs (DecidableEq (List (String × F)))

/-- Python dict assignment `d[k] = v`: update in place if the key exists,
append at the end otherwise. -/
def updateAssoc {β : Type} : List (String × β) → String → β → List (String × β)
  | [], k, v => [(k, v)]
  | (k', v') :: rest, k, v =>
      if k' = k then (k, v) :: rest else (k', v') :: updateAssoc rest k v

/-- Python dict lookup `d.get(k)` / `k in d`. -/
def lookupSlot {β : Type} : List (String × β) → String → Option β
  | [], _ => none
  | (k', v) :: rest, k => if k' = k then some v else lookupSlot rest k

/-- `round(x, 2)` on a finite value: round `100*x` to the nearest integer. -/
def round2 (x : ℚ) : ℚ := (round (x * 100) : ℤ) / 100

/-- `round(x, 2)` on a float: `round(nan, 2)` is NaN. -/
def fround2 : F → F
  | F.fin q => F.fin (round2 q)
  | F.nan => F.nan

/-- `self.max_angle_jump = 10` (Camera_realsense.py line 33). -/
def max_angle_jump : ℚ := 10

/-- `limit_angle_jump` (Camera_realsense.py lines 86-101), in float
semantics: `abs(angle - previous_angle) > 10` is false whenever either value
is NaN, in which case the angle passes through unchanged. -/
def limit_angle_jump (angle previous_angle : F) : F :=
  if fgt (fabsF (fsub angle previous_angle)) (F.fin max_angle_jump) then
    fadd previous_angle
      (fmul (if fgt angle previous_angle then F.fin 1 else F.fin (-1))
        (F.fin max_angle_jump))
  else angle

/-- `calc_angle_3d` (Camera_realsense.py lines 39-84).  `raw` abstracts the
finite-case transcendental kernel `degrees(arccos(clip(cosine)))` together
with the `-0.1` anti-stall shift; when `A-vertex` or `C-vertex` has zero
length the cosine is numpy `0.0/0.0 = NaN` (the dot product is then also zero
by Cauchy-Schwarz), NaN flows through clip, arccos and the smoothing
comparisons, and the function returns NaN — the `except` branch is never
taken because numpy signals invalid operations with a warning, not an
exception.  Returns the rounded angle and the updated smoothing state (the
stored previous value is the unrounded one, line 78). -/
def calc_angle_3d (raw : Vec3 → Vec3 → ℚ) (joint1 joint2 joint3 : Vec3)
    (joint_name : String) (st : SmoothState) : F × SmoothState :=
  let ba := vsub joint1 joint2
  let bc := vsub joint3 joint2
  let angle0 : F :=
    if normSq ba = 0 ∨ normSq bc = 0 then F.nan else F.fin (raw ba bc)
  let angle1 : F :=
    match lookupSlot st joint_name with
    | some previous => limit_angle_jump angle0 previous
    | none => angle0
  (fround2 angle1, updateAssoc st joint_name angle1)

/-! ### The exercise hysteresis state machine (`exercise_two_angles_3d`) -/

/-- Mutable per-run state: `flag` (initially `True`, line 165) and the
repetition `counter` (initially 0, line 166). -/
structure RunState where
  flag : Bool
  counter : ℕ
deriving DecidableEq

/-- `flag = True, counter = 0` (Camera_realsense.py lines 165-166). -/
def initRunState : RunState := { flag := true, counter := 0 }

/-- Static parameters of one two-angle exercise: the six joint suffixes and
the eight bounds, plus the two modifier flags. -/
structure ExParams where
  joint1 : String
  joint2 : String
  joint3 : String
  joint4 : String
  joint5 : String
  joint6 : String
  up_lb : ℚ
  up_ub : ℚ
  down_lb : ℚ
  down_ub : ℚ
  up_lb2 : ℚ
  up_ub2 : ℚ
  down_lb2 : ℚ
  down_ub2 : ℚ
  use_alternate_angles : Bool
  left_right_differ : Bool

/-- Strictly exclusive range check `lb < v < ub` as Python evaluates the
chained comparison. -/
def inRange (lb ub v : ℚ) : Bool := decide (lb < v) && decide (v < ub)

/-- The joint names the tick body indexes into the frame dictionary
(lines 178-192): both sides of the first triple, and both sides of the
second triple with the third joint taken from the opposite side when
`use_alternate_angles` is set. -/
def requiredJoints (p : ExParams) : List String :=
  ["R_" ++ p.joint1, "R_" ++ p.joint2, "R_" ++ p.joint3,
   "L_" ++ p.joint1, "L_" ++ p.joint2, "L_" ++ p.joint3] ++
  (if p.use_alternate_angles then
    ["R_" ++ p.joint4, "R_" ++ p.joint5, "L_" ++ p.joint6,
     "L_" ++ p.joint4, "L_" ++ p.joint5, "R_" ++ p.joint6]
   else
    ["R_" ++ p.joint4, "R_" ++ p.joint5, "R_" ++ p.joint6,
     "L_" ++ p.joint4, "L_" ++ p.joint5, "L_" ++ p.joint6])

/-- One tick's observations: the frame (`None` on socket timeout, otherwise
the set of joint names the frame contains) and the four values produced by
the `calc_angle_3d` calls of lines 178-192. -/
structure TickInput where
  frame : Option (List String)
  right_angle : Option ℚ
  left_angle : Option ℚ
  right_angle2 : Option ℚ
  left_angle2 : Option ℚ
deriving DecidableEq

/-- The transition block of lines 209-232: in `left_right_differ` mode the
counting condition pairs right-up with left-down (and the release condition
the mirror image); otherwise both sides must be in the same range.  The
counter increments only on the `not flag` (DOWN to UP) branch. -/
def transition (p : ExParams) (st : RunState) (ra la ra2 la2 : ℚ) : RunState :=
  if p.left_right_differ then
    if inRange p.up_lb p.up_ub ra && inRange p.down_lb p.down_ub la &&
       inRange p.up_lb2 p.up_ub2 ra2 && inRange p.down_lb2 p.down_ub2 la2 &&
       !st.flag then
      { flag := true, counter := st.counter + 1 }
    else if inRange p.down_lb p.down_ub ra && inRange p.up_lb p.up_ub la &&
            inRange p.down_lb2 p.down_ub2 ra2 && inRange p.up_lb2 p.up_ub2 la2 &&
            st.flag then
      { flag := false, counter := st.counter }
    else st
  else
    if inRange p.up_lb p.up_ub ra && inRange p.up_lb p.up_ub la &&
       inRange p.up_lb2 p.up_ub2 ra2 && inRange p.up_lb2 p.up_ub2 la2 &&
       !st.flag then
      { flag := true, counter := st.counter + 1 }
    else if inRange p.down_lb p.down_ub ra && inRange p.down_lb p.down_ub la &&
            inRange p.down_lb2 p.down_ub2 ra2 && inRange p.down_lb2 p.down_ub2 la2 &&
            st.flag then
      { flag := false, counter := st.counter }
    else st

/-- One iteration of the tracking loop body (lines 176-232).  A `None` frame
skips the body.  A present frame is indexed with `joints[name]` for every
required joint; a missing key raises `KeyError`, which no handler in
`exercise_two_angles_3d` or in `run` catches, so the run crashes
(`Except.error`).  If all angles are present the transition block runs; if
any is `None` nothing happens this tick. -/
def exercise_tick (p : ExParams) (st : RunState) (t : TickInput) :
    Except Unit RunState :=
  match t.frame with
  | none => Except.ok st
  | some frame =>
      if (requiredJoints p).all (fun j => frame.contains j) then
        match t.right_angle, t.left_angle, t.right_angle2, t.left_angle2 with
        | some ra, some la, some ra2, some la2 =>
            Except.ok (transition p st ra la ra2 la2)
        | _, _, _, _ => Except.ok st
      else Except.error ()

/-- The tracking loop of `exercise_two_angles_3d` (lines 170-237) over a
finite script of ticks.  After every tick `counter == s.rep` is checked
(line 234); on success the loop breaks with the success flag set.  An
exhausted script returns the state reached so far with no success flag (the
real loop would keep polling until an external stop changes
`s.req_exercise`). -/
def exercise_two_angles_3d (p : ExParams) (rep : ℕ) :
    RunState → List TickInput → Except Unit (RunState × Bool)
  | st, [] => Except.ok (st, false)
  | st, t :: ts =>
      match exercise_tick p st t with
      | Except.error e => Except.error e
      | Except.ok st' =>
          if st'.counter = rep then Except.ok (st', true)
          else exercise_two_angles_3d p rep st' ts

/-! ### Simplified-protocol calibration (`Patient_Calibration_Simple.py`) -/

/-- The per-exercise range record `s.calibration_ranges`. -/
structure CalibRanges where
  right_max : ℚ
  right_min : ℚ
  left_max : ℚ
  left_min : ℚ
deriving DecidableEq

/-- The initialisation written by `calibrate_one_exercise`
(Patient_Calibration_Simple.py line 113) and `main.py` line 92. -/
def calibration_ranges_init : CalibRanges :=
  { right_max := 0, right_min := 180, left_max := 0, left_min := 180 }

/-- `calibrate_one_exercise` (Patient_Calibration_Simple.py lines 101-147):
initialises `s.calibration_ranges` to the sentinels, lets the camera run the
exercise state machine, and waits until at least one repetition is counted
(or the 30-second timeout, modelled as the script running out).  The value it
then reads back and returns is `s.calibration_ranges` — which no code in
`Camera_realsense.py` ever writes, so it is still the initialisation.  A
crashed camera run never increments the repetition count, hence `none`. -/
def calibrate_one_exercise (p : ExParams) (rep : ℕ) (ticks : List TickInput) :
    Option CalibRanges :=
  match exercise_two_angles_3d p rep initRunState ticks with
  | Except.error _ => none
  | Except.ok (st, _) =>
      if 1 ≤ st.counter then some calibration_ranges_init else none

/-- Modelled from the spec (section 4.4, simplified protocol): range-tracking
mode "records running max/min of both sides' primary angle" starting from the
initialised sentinels.  This is the comparison definition for what
`calibrate_one_exercise` is claimed to return; it is not implemented anywhere
in the camera code under `src/`. -/
def calibrationRangesPerSpec (ticks : List TickInput) : CalibRanges :=
  ticks.foldl
    (fun r t =>
      let r1 := match t.right_angle with
        | some a => { r with right_max := max r.right_max a,
                             right_min := min r.right_min a }
        | none => r
      match t.left_angle with
      | some a => { r1 with left_max := max r1.left_max a,
                            left_min := min r1.left_min a }
      | none => r1)
    calibration_ranges_init

/-- One appended row of `PatientROM_Simple.xlsx`
(`save_to_excel`, Patient_Calibration_Simple.py lines 149-176). -/
structure SimpleRow where
  patientID : String
  date : String
  exercise : String
  right_max : ℚ
  right_min : ℚ
  left_max : ℚ
  left_min : ℚ
deriving DecidableEq

/-- The per-exercise ranges dictionary built by `load_from_excel`. -/
structure ExRanges where
  right_max : ℚ
  right_min : ℚ
  left_max : ℚ
  left_min : ℚ
deriving DecidableEq

/-- Lexicographic strict order on character lists: the order pandas uses when
sorting a string column. -/
def strLtB : List Char → List Char → Bool
  | [], [] => false
  | [], _ :: _ => true
  | _ :: _, [] => false
  | a :: as, b :: bs => if a < b then true else if b < a then false else strLtB as bs

/-- Lexicographic strict order on the date strings `"%Y-%m-%d %H:%M"` — for
this fixed-width format, lexicographic order is chronological order. -/
def dateLt (a b : String) : Bool := strLtB a.toList b.toList

/-- Insert a row into a list sorted by date descending (newest first):
models `sort_values('Date', ascending=False)`. -/
def insertDesc (r : SimpleRow) : List SimpleRow → List SimpleRow
  | [] => [r]
  | x :: xs => if dateLt x.date r.date then r :: x :: xs else x :: insertDesc r xs

/-- Sort rows by date, newest first. -/
def sortByDateDesc (rows : List SimpleRow) : List SimpleRow :=
  rows.foldl (fun acc r => insertDesc r acc) []

/-- `load_from_excel` (Patient_Calibration_Simple.py lines 178-208): filter
the patient's rows, sort newest-first, then iterate the sorted rows
assigning `calibration[exercise] = row` — so a later iteration (an OLDER
dated row) overwrites an earlier one for the same exercise. -/
def load_from_excel (rows : List SimpleRow) (patient_id : String) :
    Option (List (String × ExRanges)) :=
  let patient_data := rows.filter (fun r => r.patientID = patient_id)
  if patient_data.isEmpty then none
  else
    some ((sortByDateDesc patient_data).foldl
      (fun cal row =>
        updateAssoc cal row.exercise
          { right_max := row.right_max, right_min := row.right_min,
            left_max := row.left_max, left_min := row.left_min })
      [])

/-! ### Full-protocol calibration (`Patient_Calibration.py`) -/

/-- One 0.1-second iteration of the `capture_angle` sampling loop: the value
of `s.stop_requested` observed at that tick, and the three joints of the
measurement's triple if the skeleton was received and contained them
(`None` models both a socket timeout and the caught `KeyError`). -/
structure CapTick where
  stop : Bool
  joints : Option (Vec3 × Vec3 × Vec3)
deriving DecidableEq

/-- The body of one sampling iteration of `capture_angle`
(Patient_Calibration.py lines 347-361), after the stop check: if the
skeleton was received with the triple's joints, compute the angle through
the single slot id `"calibration"` and append it when
`angle is not None and angle > 0` (the angle is never `None`; a NaN fails
the `> 0` test); otherwise leave samples and smoothing state unchanged. -/
def cap_step (raw : Vec3 → Vec3 → ℚ) (t : CapTick) (st : SmoothState)
    (samples : List ℚ) : List ℚ × SmoothState :=
  match t.joints with
  | some (j1, j2, j3) =>
      let r := calc_angle_3d raw j1 j2 j3 "calibration" st
      (match r.1 with
       | F.fin a => if 0 < a then samples ++ [a] else samples
       | F.nan => samples, r.2)
  | none => (samples, st)

/-- The sampling loop of `capture_angle` (Patient_Calibration.py lines
338-363), with the window duration counted in ticks.  Every tick first
checks `s.stop_requested` and returns `None` immediately when it is set —
mid-window.  Returns the collected samples (`none` when cancelled), the
smoothing state, and the number of ticks consumed. -/
def capture_loop (raw : Vec3 → Vec3 → ℚ) :
    ℕ → List CapTick → SmoothState → List ℚ →
    Option (List ℚ) × SmoothState × ℕ
  | 0, _, st, samples => (some samples, st, 0)
  | _ + 1, [], st, samples => (some samples, st, 0)
  | d + 1, t :: ts, st, samples =>
      if t.stop then (none, st, 1)
      else
        let step := cap_step raw t st samples
        let rest := capture_loop raw d ts step.2 step.1
        (rest.1, rest.2.1, rest.2.2 + 1)

/-- Maximum of a nonempty list (np.max). -/
def listMax (a : ℚ) (l : List ℚ) : ℚ := l.foldl max a

/-- Minimum of a nonempty list (np.min). -/
def listMin (a : ℚ) (l : List ℚ) : ℚ := l.foldl min a

/-- `capture_angle` (lines 338-369): run the window, then reduce the samples
with np.max (`target = true`) or np.min; an empty sample list yields `None`,
as does a mid-window cancellation. -/
def capture_angle (raw : Vec3 → Vec3 → ℚ) (target : Bool) (d : ℕ)
    (ticks : List CapTick) (st : SmoothState) :
    Option ℚ × SmoothState × ℕ :=
  match capture_loop raw d ticks st [] with
  | (none, st', n) => (none, st', n)
  | (some [], st', n) => (none, st', n)
  | (some (s :: ss), st', n) =>
      (some (if target then listMax s ss else listMin s ss), st', n)

/-- One entry of `calibration_measurements` together with the run-time data
of its two sampling windows: the clinically-normal defaults, the value of
`s.stop_requested` at the measurement boundary (run_calibration line 260),
and the tick streams of the max and min windows. -/
structure MeasSpec where
  normal_max : ℚ
  normal_min : ℚ
  stopAtBoundary : Bool
  maxWin : List CapTick
  minWin : List CapTick

/-- `measure_rom` (Patient_Calibration.py lines 302-336): capture the max
window, then the min window; either returning `None` fails the measurement;
otherwise swap so that max >= min. -/
def measure_rom (raw : Vec3 → Vec3 → ℚ) (d : ℕ) (m : MeasSpec)
    (st : SmoothState) : Option (ℚ × ℚ) × SmoothState :=
  match capture_angle raw true d m.maxWin st with
  | (none, st1, _) => (none, st1)
  | (some mx, st1, _) =>
      match capture_angle raw false d m.minWin st1 with
      | (none, st2, _) => (none, st2)
      | (some mn, st2, _) =>
          (some (if mx < mn then (mn, mx) else (mx, mn)), st2)

/-- The measurement loop of `run_calibration` (lines 259-278): at each
measurement boundary `s.stop_requested` cancels the whole run (`none`);
a failed measurement records the clinically-normal defaults and the loop
continues with the remaining measurements.  The smoothing state threads
through all measurements — it is never cleared. -/
def run_calibration (raw : Vec3 → Vec3 → ℚ) (d : ℕ) :
    List MeasSpec → SmoothState → Option (List (ℚ × ℚ))
  | [], _ => some []
  | m :: ms, st =>
      if m.stopAtBoundary then none
      else
        let r := measure_rom raw d m st
        let entry := match r.1 with
          | some v => v
          | none => (m.normal_max, m.normal_min)
        match run_calibration raw d ms r.2 with
        | none => none
        | some rest => some (entry :: rest)

/-! ### Adaptive range resolver (`get_adaptive_range_for_joint`) -/

/-- `get_adaptive_range_for_joint` (Patient_Calibration.py lines 491-527).
The patient ROM record is the loaded row: a map from column name to value;
the function looks up `<joint_combo>_Max` and `<joint_combo>_Min`. -/
def get_adaptive_range_for_joint (patient_calibrated : Bool)
    (patient_rom : List (String × ℚ)) (joint_combo : String)
    (default_min default_max : ℚ) : ℚ × ℚ :=
  if !patient_calibrated then (default_min, default_max)
  else if patient_rom.isEmpty then (default_min, default_max)
  else
    match lookupSlot patient_rom (joint_combo ++ "_Max"),
          lookupSlot patient_rom (joint_combo ++ "_Min") with
    | some patient_max, some patient_min =>
        let safety : ℚ := 90 / 100
        let range_span := patient_max - patient_min
        let safe_max := patient_min + range_span * safety
        if patient_max < default_max then (patient_min, safe_max)
        else (default_min, default_max)
    | _, _ => (default_min, default_max)

/-! ### Derived helper and concrete instances used by the theorems -/

/-- `limit_angle_jump` restricted to finite values, over the rationals:
clamp a new angle `a` to within `max_angle_jump` of the previous angle `p`,
preserving the direction of change. -/
def qlimit (a p : ℚ) : ℚ :=
  if max_angle_jump < |a - p| then
    p + (if p < a then 1 else -1) * max_angle_jump
  else a

/-- A two-angle exercise whose both angle pairs use the up-range 150-180 and
the down-range 10-60 of the end-to-end scenario (the joint names are those
of `ball_bend_elbows`). -/
def twoAngleParams : ExParams :=
  { joint1 := "shoulder", joint2 := "elbow", joint3 := "wrist",
    joint4 := "elbow", joint5 := "shoulder", joint6 := "hip",
    up_lb := 150, up_ub := 180, down_lb := 10, down_ub := 60,
    up_lb2 := 150, up_ub2 := 180, down_lb2 := 10, down_ub2 := 60,
    use_alternate_angles := false, left_right_differ := false }

/-- A tick whose frame contains every required joint and whose four measured
angles all equal `v`. -/
def angleTick (v : ℚ) : TickInput :=
  { frame := some (requiredJoints twoAngleParams),
    right_angle := some v, left_angle := some v,
    right_angle2 := some v, left_angle2 := some v }

/-- Ten frames alternating 170, 30, 170, 30, ... (up-range first): five full
cycles of the end-to-end scenario read with the up position first. -/
def upFirstScript : List TickInput :=
  List.map angleTick [170, 30, 170, 30, 170, 30, 170, 30, 170, 30]

/-- Ten frames alternating 30, 170, 30, 170, ... (down-range first): five
full down-up cycles. -/
def downFirstScript : List TickInput :=
  List.map angleTick [30, 170, 30, 170, 30, 170, 30, 170, 30, 170]

/-- A tick whose frame is present but is missing the required joint
`R_shoulder` (all other required joints are present), with all four angles
measured. -/
def missingJointTick : TickInput :=
  { frame := some ((requiredJoints twoAngleParams).filter
      (fun j => j ≠ "R_shoulder")),
    right_angle := some 170, left_angle := some 170,
    right_angle2 := some 170, left_angle2 := some 170 }

/-- A tick with no skeleton data at all (socket timeout). -/
def timeoutTick : TickInput :=
  { frame := none, right_angle := none, left_angle := none,
    right_angle2 := none, left_angle2 := none }

/-- The two saved sessions of the most-recent-wins scenario: the same
patient and exercise calibrated on an earlier and on a later date, with
different ranges; `save_to_excel` appends them in chronological order. -/
def rowOld : SimpleRow :=
  { patientID := "p1", date := "2025-01-05 10:00", exercise := "ball_bend_elbows",
    right_max := 100, right_min := 10, left_max := 90, left_min := 20 }

/-- The later (most recent) session of the most-recent-wins scenario. -/
def rowNew : SimpleRow :=
  { patientID := "p1", date := "2025-06-01 10:00", exercise := "ball_bend_elbows",
    right_max := 150, right_min := 5, left_max := 140, left_min := 15 }

/-- A non-degenerate joint triple: `A = (1,0,0)`, `vertex = (0,0,0)`,
`C = (0,1,0)`. -/
def jointA : Vec3 := (1, 0, 0)

/-- The vertex of the concrete triple. -/
def jointB : Vec3 := (0, 0, 0)

/-- The third joint of the concrete triple. -/
def jointC : Vec3 := (0, 1, 0)

/-- A point used both as `A` and as the vertex in the degenerate-angle
scenario (`A == vertex`). -/
def degA : Vec3 := (1, 2, 3)

/-- The other end point of the degenerate-angle scenario. -/
def degC : Vec3 := (4, 5, 6)

/-- Another coincident point pair for the degenerate witness. -/
def degVertex : Vec3 := (2, 2, 2)

/-! ## Supporting lemmas -/

/-- A NaN angle passes through the jump limiter unchanged: every float
comparison involving NaN is false. -/
theorem limit_angle_jump_nan (prev : F) : limit_angle_jump F.nan prev = F.nan := by
  cases prev <;> rfl

/-- On finite values the jump limiter is the rational clamp `qlimit`. -/
theorem limit_angle_jump_fin (a p : ℚ) :
    limit_angle_jump (F.fin a) (F.fin p) = F.fin (qlimit a p) := by
  unfold limit_angle_jump qlimit
  by_cases h1 : max_angle_jump < |a - p|
  · by_cases h2 : p < a <;> simp [fgt, fabsF, fsub, fadd, fmul, h1, h2]
  · simp [fgt, fabsF, fsub, h1]

/-- The clamped value is within `max_angle_jump` of the previous value. -/
theorem qlimit_dist (a p : ℚ) : |qlimit a p - p| ≤ max_angle_jump := by
  unfold qlimit
  by_cases h1 : max_angle_jump < |a - p|
  · rw [if_pos h1]
    by_cases h2 : p < a
    · rw [if_pos h2]
      have he : p + 1 * max_angle_jump - p = max_angle_jump := by ring
      rw [he, abs_of_nonneg (by norm_num [max_angle_jump])]
    · rw [if_neg h2]
      have he : p + -1 * max_angle_jump - p = -max_angle_jump := by ring
      rw [he, abs_neg, abs_of_nonneg (by norm_num [max_angle_jump])]
  · rw [if_neg h1]
    exact le_of_not_lt h1

/-- Clamping a nonnegative raw angle against a nonnegative previous value
yields a nonnegative value. -/
theorem qlimit_nonneg {a p : ℚ} (ha : 0 ≤ a) (hp : 0 ≤ p) : 0 ≤ qlimit a p := by
  have hm : max_angle_jump = (10 : ℚ) := rfl
  unfold qlimit
  by_cases h1 : max_angle_jump < |a - p|
  · rw [if_pos h1]
    by_cases h2 : p < a
    · rw [if_pos h2, hm]
      linarith
    · rw [if_neg h2]
      rw [abs_of_nonpos (by linarith [not_lt.mp h2])] at h1
      rw [hm] at h1 ⊢
      linarith
  · rw [if_neg h1]
    exact ha

/-- Dict assignment then lookup of the same key. -/
theorem lookup_updateAssoc_self {β : Type} (l : List (String × β)) (k : String)
    (v : β) : lookupSlot (updateAssoc l k v) k = some v := by
  induction l with
  | nil => simp [updateAssoc, lookupSlot]
  | cons a rest ih =>
      obtain ⟨ka, va⟩ := a
      by_cases h : ka = k
      · subst h
        simp [updateAssoc, lookupSlot]
      · simp only [updateAssoc, if_neg h, lookupSlot]
        exact ih

/-- Dict assignment leaves every other key's binding unchanged. -/
theorem lookup_updateAssoc_ne {β : Type} (l : List (String × β)) (k k' : String)
    (v : β) (h : k' ≠ k) : lookupSlot (updateAssoc l k v) k' = lookupSlot l k' := by
  have hk : ¬ k = k' := fun hc => h hc.symm
  induction l with
  | nil =>
      simp only [updateAssoc, lookupSlot]
      rw [if_neg hk]
  | cons a rest ih =>
      obtain ⟨ka, va⟩ := a
      by_cases ha : ka = k
      · subst ha
        simp only [updateAssoc, if_pos rfl, lookupSlot]
        rw [if_neg hk, if_neg hk]
      · simp only [updateAssoc, if_neg ha, lookupSlot]
        by_cases hka : ka = k'
        · rw [if_pos hka, if_pos hka]
        · rw [if_neg hka, if_neg hka]
          exact ih

/-- `calc_angle_3d` on a non-degenerate triple with a stored finite previous
angle: the raw angle is clamped, the clamped value is stored, and the
rounded clamped value is returned. -/
theorem calc_angle_3d_fin_prev (raw : Vec3 → Vec3 → ℚ) (j1 j2 j3 : Vec3)
    (slot : String) (st : SmoothState) (p : ℚ)
    (hprev : lookupSlot st slot = some (F.fin p))
    (h1 : normSq (vsub j1 j2) ≠ 0) (h2 : normSq (vsub j3 j2) ≠ 0) :
    calc_angle_3d raw j1 j2 j3 slot st =
      (F.fin (round2 (qlimit (raw (vsub j1 j2) (vsub j3 j2)) p)),
       updateAssoc st slot (F.fin (qlimit (raw (vsub j1 j2) (vsub j3 j2)) p))) := by
  simp only [calc_angle_3d]
  rw [if_neg (not_or.mpr ⟨h1, h2⟩), hprev]
  show (fround2 (limit_angle_jump (F.fin (raw (vsub j1 j2) (vsub j3 j2))) (F.fin p)),
        updateAssoc st slot
          (limit_angle_jump (F.fin (raw (vsub j1 j2) (vsub j3 j2))) (F.fin p))) = _
  rw [limit_angle_jump_fin]
  rfl

/-- `calc_angle_3d` on a non-degenerate triple with no stored previous angle:
the raw angle is stored unclamped and returned rounded. -/
theorem calc_angle_3d_no_prev (raw : Vec3 → Vec3 → ℚ) (j1 j2 j3 : Vec3)
    (slot : String) (st : SmoothState)
    (hprev : lookupSlot st slot = none)
    (h1 : normSq (vsub j1 j2) ≠ 0) (h2 : normSq (vsub j3 j2) ≠ 0) :
    calc_angle_3d raw j1 j2 j3 slot st =
      (F.fin (round2 (raw (vsub j1 j2) (vsub j3 j2))),
       updateAssoc st slot (F.fin (raw (vsub j1 j2) (vsub j3 j2)))) := by
  simp only [calc_angle_3d]
  rw [if_neg (not_or.mpr ⟨h1, h2⟩), hprev]
  rfl

/-- Two-decimal rounding is monotone. -/
theorem round2_mono {a b : ℚ} (h : a ≤ b) : round2 a ≤ round2 b := by
  unfold round2
  have h1 : round (a * 100) ≤ round (b * 100) := by
    rw [round_eq, round_eq]
    exact Int.floor_le_floor (by linarith)
  have h2 : ((round (a * 100) : ℤ) : ℚ) ≤ ((round (b * 100) : ℤ) : ℚ) :=
    Int.cast_le.mpr h1
  linarith

/-- Two-decimal rounding commutes with shifting by 10 (an exact multiple of
the rounding grid). -/
theorem round2_add_ten (x : ℚ) : round2 (x + 10) = round2 x + 10 := by
  unfold round2
  have h : (x + 10) * 100 = x * 100 + (1000 : ℤ) := by push_cast; ring
  rw [h, round_add_int]
  push_cast
  ring

/-- Two-decimal rounding commutes with shifting by -10. -/
theorem round2_sub_ten (x : ℚ) : round2 (x - 10) = round2 x - 10 := by
  unfold round2
  have h : (x - 10) * 100 = x * 100 - (1000 : ℤ) := by push_cast; ring
  rw [h, round_sub_int]
  push_cast
  ring

/-- Two-decimal rounding preserves nonnegativity. -/
theorem round2_nonneg {x : ℚ} (h : 0 ≤ x) : 0 ≤ round2 x := by
  have h0 : round2 0 = 0 := by
    unfold round2
    norm_num
  calc (0 : ℚ) = round2 0 := h0.symm
    _ ≤ round2 x := round2_mono h

/-- Values at most 10 apart round to values at most 10 apart: the rounding
shifts cancel because 10 is a whole number of hundredths. -/
theorem round2_close {a b : ℚ} (h : |a - b| ≤ 10) :
    |round2 a - round2 b| ≤ 10 := by
  rw [abs_le] at h
  have hub : round2 a ≤ round2 b + 10 := by
    calc round2 a ≤ round2 (b + 10) := round2_mono (by linarith)
      _ = round2 b + 10 := round2_add_ten b
  have hlb : round2 b - 10 ≤ round2 a := by
    have := round2_mono (show b - 10 ≤ a by linarith)
    rw [round2_sub_ten] at this
    linarith
  rw [abs_le]
  constructor <;> linarith

/-- Two-decimal rounding moves a value by at most 1/200. -/
theorem round2_dist (x : ℚ) : |round2 x - x| ≤ 1 / 200 := by
  unfold round2
  have h := abs_sub_round (x * 100)
  have h2 : |(round (x * 100) : ℚ) - x * 100| ≤ 1 / 2 := by
    rw [abs_sub_comm] at h
    exact h
  have h3 : ((round (x * 100) : ℤ) : ℚ) / 100 - x =
      ((round (x * 100) : ℚ) - x * 100) / 100 := by ring
  rw [h3, abs_div]
  rw [abs_of_pos (show (0:ℚ) < 100 by norm_num)]
  linarith

/-! ## Claim C1 -/

/-- C1 counterexample: the state machine does NOT start in the DOWN phase —
`flag` starts `True`, which is the UP phase (a repetition is counted only
when `not flag`).  Feeding the two-angle evaluator with `targetReps = 5` the
scripted sequence whose measured angles alternate 170, 30, 170, ... (strictly
inside the up-range 150-180 and the down-range 10-60) for five full cycles
ends with the repetition counter at 4 and no success flag, not in the success
terminal state with counter 5 as the claim states. -/
theorem claim1_counterexample :
    exercise_two_angles_3d twoAngleParams 5 initRunState upFirstScript =
      Except.ok ({ flag := false, counter := 4 }, false) := by
  decide

/-- C1 amended: the hysteresis state machine starts in the UP phase
(`flag = True`), so it must first observe the down range before a repetition
can be counted; a scripted frame sequence of five full (down, up) cycles —
30 then 170, strictly inside the down-range 10-60 and the up-range 150-180 —
with `targetReps = 5` ends in the success terminal state with repetition
counter equal to 5. -/
theorem claim1_amended :
    exercise_two_angles_3d twoAngleParams 5 initRunState downFirstScript =
      Except.ok ({ flag := true, counter := 5 }, true) := by
  decide

/-! ## Claim C2 -/

/-- C2 counterexample: a tick whose skeleton frame is present but missing the
required joint `R_shoulder` does not abort evaluation quietly — the dict
lookup `joints["R_shoulder"]` raises an uncaught `KeyError` and the run
crashes (`Except.error`), contradicting "no error ... never by crashing". -/
theorem claim2_counterexample :
    exercise_two_angles_3d twoAngleParams 5 initRunState [missingJointTick] =
      Except.error () := by
  decide

/-- C2 amended: a tick with no skeleton data (socket timeout) or with all
required joints present but some needed angle undefined aborts evaluation of
that tick with no state transition and no error, and the loop continues; in
particular a stream of frame-less ticks of any length never completes a
repetition (the run only ends on an external stop).  However — as the
counterexample shows — a present frame that is missing a required joint
crashes the run with an uncaught `KeyError` instead of being skipped. -/
theorem claim2_amended :
    (∀ (p : ExParams) (st : RunState) (t : TickInput),
      t.frame = none → exercise_tick p st t = Except.ok st) ∧
    (∀ (p : ExParams) (st : RunState) (fr : List String)
        (ra la ra2 la2 : Option ℚ),
      (requiredJoints p).all (fun j => fr.contains j) = true →
      (ra = none ∨ la = none ∨ ra2 = none ∨ la2 = none) →
      exercise_tick p st
        { frame := some fr, right_angle := ra, left_angle := la,
          right_angle2 := ra2, left_angle2 := la2 } = Except.ok st) ∧
    (∀ (p : ExParams) (rep n : ℕ), 0 < rep →
      exercise_two_angles_3d p rep initRunState (List.replicate n timeoutTick) =
        Except.ok (initRunState, false)) := by
  refine ⟨?_, ?_, ?_⟩
  · intro p st t h
    unfold exercise_tick
    rw [h]
  · intro p st fr ra la ra2 la2 hall hnone
    unfold exercise_tick
    cases ra <;> cases la <;> cases ra2 <;> cases la2 <;>
      simp_all [exercise_tick]
  · intro p rep n hrep
    induction n with
    | zero => rfl
    | succ k ih =>
        rw [List.replicate_succ]
        have hstep : exercise_tick p initRunState timeoutTick =
            Except.ok initRunState := rfl
        have hcnt : initRunState.counter = 0 := rfl
        simp only [exercise_two_angles_3d, hstep]
        rw [if_neg (by omega), ih]

/-- C2 witness: the amended theorem applied at a concrete exercise, state and
scripts. -/
theorem claim2_witness :
    exercise_tick twoAngleParams initRunState timeoutTick =
        Except.ok initRunState ∧
    exercise_tick twoAngleParams initRunState
        { frame := some (requiredJoints twoAngleParams),
          right_angle := none, left_angle := some 170,
          right_angle2 := some 170, left_angle2 := some 170 } =
        Except.ok initRunState ∧
    exercise_two_angles_3d twoAngleParams 5 initRunState
        (List.replicate 7 timeoutTick) = Except.ok (initRunState, false) :=
  ⟨claim2_amended.1 twoAngleParams initRunState timeoutTick rfl,
   claim2_amended.2.1 twoAngleParams initRunState
     (requiredJoints twoAngleParams) none (some 170) (some 170) (some 170)
     (by decide) (Or.inl rfl),
   claim2_amended.2.2 twoAngleParams 5 7 (by decide)⟩

/-! ## Claim C3 -/

/-- C3 counterexample: with `A == vertex` (zero-length `A - vertex`) the
angle computation does NOT return "no result" (`None`) — numpy evaluates the
`0.0/0.0` cosine to NaN without raising, the `except` branch is never taken,
and the function returns a NaN value. -/
theorem claim3_counterexample :
    (calc_angle_3d (fun _ _ => 0) degA degA degC "R_1" []).1 = F.nan := by
  simp only [calc_angle_3d]
  rw [if_pos (Or.inl (by norm_num [normSq, vsub, degA]))]
  rfl

/-- C3 amended: for every call to the angle computation where `A - vertex`
or `C - vertex` has zero length, the result is a NaN value — it propagates
through the clamp, arccos, the jump limiter (whose NaN comparisons are all
false) and the rounding — and never a `None` and never an unhandled error
(the function is total). -/
theorem claim3_amended :
    ∀ (raw : Vec3 → Vec3 → ℚ) (j1 j2 j3 : Vec3) (slot : String)
      (st : SmoothState),
      normSq (vsub j1 j2) = 0 ∨ normSq (vsub j3 j2) = 0 →
      (calc_angle_3d raw j1 j2 j3 slot st).1 = F.nan := by
  intro raw j1 j2 j3 slot st h
  simp only [calc_angle_3d]
  rw [if_pos h]
  cases hl : lookupSlot st slot with
  | none => rfl
  | some prev =>
      show fround2 (limit_angle_jump F.nan prev) = F.nan
      rw [limit_angle_jump_nan]
      rfl

/-- C3 witness: the amended theorem at a coincident `A == vertex` pair, with
a stored previous angle in the slot. -/
theorem claim3_witness :
    (calc_angle_3d (fun _ _ => 90) degVertex degVertex jointA "L_1"
      [("L_1", F.fin 45)]).1 = F.nan :=
  claim3_amended (fun _ _ => 90) degVertex degVertex jointA "L_1"
    [("L_1", F.fin 45)] (Or.inl (by norm_num [normSq, vsub, degVertex]))

/-! ## Claim C4 -/

/-- C4 counterexample: with stored previous angle `P = 0.006` and raw
geometric angle 50, the value returned for the slot is
`round(0.006 + 10, 2) = 10.01`, which differs from `P` by `10.004 > J = 10`:
the clamp is applied before the 2-decimal rounding, so the returned value can
exceed the jump limit by up to half a hundredth. -/
theorem claim4_counterexample :
    (calc_angle_3d (fun _ _ => 50) jointA jointB jointC "j"
        [("j", F.fin (3 / 500))]).1 = F.fin (1001 / 100) ∧
    ¬ |(1001 : ℚ) / 100 - 3 / 500| ≤ max_angle_jump := by
  have habs : |(50 : ℚ) - 3 / 500| = 24997 / 500 := by
    rw [abs_of_pos (by norm_num)]
    norm_num
  have h1 : qlimit 50 (3 / 500 : ℚ) = 5003 / 500 := by
    unfold qlimit
    rw [habs, if_pos (by norm_num [max_angle_jump]), if_pos (by norm_num)]
    norm_num [max_angle_jump]
  have h2 : round2 (5003 / 500 : ℚ) = 1001 / 100 := by
    unfold round2
    norm_num [round_eq]
  constructor
  · rw [calc_angle_3d_fin_prev (fun _ _ => 50) jointA jointB jointC "j"
        [("j", F.fin (3 / 500))] (3 / 500) (by simp [lookupSlot])
        (by norm_num [normSq, vsub, jointA, jointB])
        (by norm_num [normSq, vsub, jointC, jointB])]
    show F.fin (round2 (qlimit 50 (3 / 500))) = F.fin (1001 / 100)
    rw [h1, h2]
  · rw [show |(1001 : ℚ) / 100 - 3 / 500| = 2501 / 250 by
      rw [abs_of_pos (by norm_num)]; norm_num]
    norm_num [max_angle_jump]

/-- C4 amended: on a slot with stored previous angle `P` and max jump
`J = 10`, the value STORED back into the slot differs from `P` by at most
`J` regardless of the raw geometric angle; the value RETURNED is that
clamped value rounded to 2 decimal places and therefore differs from `P` by
at most `J + 0.005`. -/
theorem claim4_amended :
    ∀ (raw : Vec3 → Vec3 → ℚ) (j1 j2 j3 : Vec3) (slot : String)
      (st : SmoothState) (p : ℚ),
      lookupSlot st slot = some (F.fin p) →
      normSq (vsub j1 j2) ≠ 0 → normSq (vsub j3 j2) ≠ 0 →
      |qlimit (raw (vsub j1 j2) (vsub j3 j2)) p - p| ≤ max_angle_jump ∧
      lookupSlot (calc_angle_3d raw j1 j2 j3 slot st).2 slot =
        some (F.fin (qlimit (raw (vsub j1 j2) (vsub j3 j2)) p)) ∧
      (calc_angle_3d raw j1 j2 j3 slot st).1 =
        F.fin (round2 (qlimit (raw (vsub j1 j2) (vsub j3 j2)) p)) ∧
      |round2 (qlimit (raw (vsub j1 j2) (vsub j3 j2)) p) - p| ≤
        max_angle_jump + 1 / 200 := by
  intro raw j1 j2 j3 slot st p hprev h1 h2
  have hc := calc_angle_3d_fin_prev raw j1 j2 j3 slot st p hprev h1 h2
  refine ⟨qlimit_dist _ _, ?_, ?_, ?_⟩
  · rw [hc]
    exact lookup_updateAssoc_self st slot _
  · rw [hc]
  · have hd := round2_dist (qlimit (raw (vsub j1 j2) (vsub j3 j2)) p)
    have hq := qlimit_dist (raw (vsub j1 j2) (vsub j3 j2)) p
    have ht := abs_sub_le (round2 (qlimit (raw (vsub j1 j2) (vsub j3 j2)) p))
      (qlimit (raw (vsub j1 j2) (vsub j3 j2)) p) p
    linarith

/-- C4 witness: the amended theorem at raw angle 15 against stored previous
10 (an unclamped move). -/
theorem claim4_witness :
    |qlimit 15 10 - 10| ≤ max_angle_jump ∧
    lookupSlot (calc_angle_3d (fun _ _ => 15) jointA jointB jointC "k"
        [("k", F.fin 10)]).2 "k" = some (F.fin (qlimit 15 10)) ∧
    (calc_angle_3d (fun _ _ => 15) jointA jointB jointC "k"
        [("k", F.fin 10)]).1 = F.fin (round2 (qlimit 15 10)) ∧
    |round2 (qlimit 15 10) - 10| ≤ max_angle_jump + 1 / 200 :=
  claim4_amended (fun _ _ => 15) jointA jointB jointC "k" [("k", F.fin 10)] 10
    (by simp [lookupSlot]) (by norm_num [normSq, vsub, jointA, jointB])
    (by norm_num [normSq, vsub, jointC, jointB])

/-! ## Claim C5 -/

/-- C5: the adaptive range resolver.  With no calibration, or with the key's
columns absent from the ROM record, the defaults are returned unchanged;
otherwise if `patientMax < defaultMax` it returns
`(patientMin, patientMin + 0.9 * (patientMax - patientMin))`, and if
`patientMax >= defaultMax` it returns exactly the input defaults. -/
theorem claim5_adaptive_range :
    ∀ (cal : Bool) (rom : List (String × ℚ)) (key : String)
      (dmin dmax pmax pmin : ℚ),
      (cal = false →
        get_adaptive_range_for_joint cal rom key dmin dmax = (dmin, dmax)) ∧
      (lookupSlot rom (key ++ "_Max") = none ∨ lookupSlot rom (key ++ "_Min") = none →
        get_adaptive_range_for_joint cal rom key dmin dmax = (dmin, dmax)) ∧
      (cal = true → lookupSlot rom (key ++ "_Max") = some pmax →
        lookupSlot rom (key ++ "_Min") = some pmin → pmax < dmax →
        get_adaptive_range_for_joint cal rom key dmin dmax =
          (pmin, pmin + 9 / 10 * (pmax - pmin))) ∧
      (cal = true → lookupSlot rom (key ++ "_Max") = some pmax →
        lookupSlot rom (key ++ "_Min") = some pmin → dmax ≤ pmax →
        get_adaptive_range_for_joint cal rom key dmin dmax = (dmin, dmax)) := by
  intro cal rom key dmin dmax pmax pmin
  refine ⟨?_, ?_, ?_, ?_⟩
  · intro h
    subst h
    rfl
  · intro h
    unfold get_adaptive_range_for_joint
    rcases h with h | h <;> cases cal <;> cases hrm : rom.isEmpty <;>
      simp [h, hrm]
  · intro hc hmax hmin hlt
    subst hc
    unfold get_adaptive_range_for_joint
    have hne : rom.isEmpty = false := by
      cases rom with
      | nil => simp [lookupSlot] at hmax
      | cons a l => rfl
    simp only [hne, hmax, hmin]
    simp [hlt, Prod.ext_iff]
    ring
  · intro hc hmax hmin hge
    subst hc
    unfold get_adaptive_range_for_joint
    have hne : rom.isEmpty = false := by
      cases rom with
      | nil => simp [lookupSlot] at hmax
      | cons a l => rfl
    simp only [hne, hmax, hmin]
    simp [not_lt.mpr hge]

/-- C5 witness: the resolver applied at a concrete calibrated record where
the patient is more limited than the default (`120 < 150`), and at the
same record against a smaller default (`120 >= 100`). -/
theorem claim5_witness :
    get_adaptive_range_for_joint true
        [("R_Elbow_Max", 120), ("R_Elbow_Min", 20)] "R_Elbow" 10 150 =
      (20, 20 + 9 / 10 * (120 - 20)) ∧
    get_adaptive_range_for_joint true
        [("R_Elbow_Max", 120), ("R_Elbow_Min", 20)] "R_Elbow" 10 100 =
      (10, 100) :=
  ⟨(claim5_adaptive_range true [("R_Elbow_Max", 120), ("R_Elbow_Min", 20)]
      "R_Elbow" 10 150 120 20).2.2.1 rfl rfl rfl (by norm_num),
   (claim5_adaptive_range true [("R_Elbow_Max", 120), ("R_Elbow_Min", 20)]
      "R_Elbow" 10 100 120 20).2.2.2 rfl rfl rfl (by norm_num)⟩

/-! ## Claim C6 -/

/-- C6 counterexample: a stop request observed at the second tick of a
40-tick sampling window cuts the window short immediately — `capture_angle`
returns no result having consumed only 2 of the 40 ticks, so an in-progress
window does NOT always run to its full duration. -/
theorem claim6_counterexample :
    capture_angle (fun _ _ => 0) true 40
        [{ stop := false, joints := none }, { stop := true, joints := none }]
        [] =
      (none, [], 2) ∧ (2 : ℕ) < 40 := by
  exact ⟨by decide, by decide⟩

/-- C6 amended: during full-protocol calibration, cancellation is checked at
every sampling tick as well as at measurement boundaries.  A window whose
first `d` ticks carry no stop request runs to its full duration (consumes
exactly `d` ticks); a window whose stop flag first rises at tick `k < d`
is aborted immediately — the loop returns no result having consumed exactly
`k + 1` ticks. -/
theorem claim6_amended :
    (∀ (raw : Vec3 → Vec3 → ℚ) (d : ℕ) (ticks : List CapTick)
        (st : SmoothState) (samples : List ℚ),
      d ≤ ticks.length → (∀ t ∈ ticks.take d, t.stop = false) →
      (capture_loop raw d ticks st samples).2.2 = d) ∧
    (∀ (raw : Vec3 → Vec3 → ℚ) (pre : List CapTick) (tk : CapTick)
        (rest : List CapTick) (st : SmoothState) (samples : List ℚ) (d : ℕ),
      pre.length < d → (∀ t ∈ pre, t.stop = false) → tk.stop = true →
      (capture_loop raw d (pre ++ tk :: rest) st samples).1 = none ∧
      (capture_loop raw d (pre ++ tk :: rest) st samples).2.2 =
        pre.length + 1) := by
  constructor
  · intro raw d
    induction d with
    | zero =>
        intro ticks st samples _ _
        rfl
    | succ k ih =>
        intro ticks st samples hlen hstop
        cases ticks with
        | nil => simp at hlen
        | cons t ts =>
            have hs : t.stop = false := hstop t (by simp [List.take_succ_cons])
            simp only [capture_loop, hs, Bool.false_eq_true, if_false]
            rw [ih ts _ _ (by simpa using hlen)
              (fun u hu => hstop u (by simp [List.take_succ_cons, hu]))]
  · intro raw pre
    induction pre with
    | nil =>
        intro tk rest st samples d hd hpre htk
        cases d with
        | zero => omega
        | succ k =>
            constructor <;> simp [capture_loop, htk]
    | cons t pre' ih =>
        intro tk rest st samples d hd hpre htk
        cases d with
        | zero => omega
        | succ k =>
            have hs : t.stop = false := hpre t (by simp)
            have hrec := ih tk rest
              (cap_step raw t st samples).2 (cap_step raw t st samples).1 k
              (by simpa using hd) (fun u hu => hpre u (by simp [hu])) htk
            rw [List.cons_append]
            constructor
            · simp only [capture_loop, hs, Bool.false_eq_true, if_false]
              exact hrec.1
            · simp only [capture_loop, hs, Bool.false_eq_true, if_false]
              rw [hrec.2]
              simp

/-- C6 witness: a stop-free 2-tick window consumes exactly its duration, and
a window with the stop flag at its second tick consumes exactly 2 ticks and
returns no result. -/
theorem claim6_witness :
    (capture_loop (fun _ _ => 0) 2
        [{ stop := false, joints := none }, { stop := false, joints := none },
         { stop := false, joints := none }] [] []).2.2 = 2 ∧
    (capture_loop (fun _ _ => 0) 5
        ([{ stop := false, joints := none }] ++
          { stop := true, joints := none } :: []) [] []).1 = none :=
  ⟨claim6_amended.1 (fun _ _ => 0) 2
      [{ stop := false, joints := none }, { stop := false, joints := none },
       { stop := false, joints := none }] [] [] (by decide) (by decide),
   (claim6_amended.2 (fun _ _ => 0) [{ stop := false, joints := none }]
      { stop := true, joints := none } [] [] [] 5 (by decide) (by decide)
      rfl).1⟩

/-! ## Claim C7 -/

/-- Every sample the capture loop retains is strictly positive: a tick whose
computed angle is non-positive (or NaN) appends nothing. -/
theorem cap_step_pos (raw : Vec3 → Vec3 → ℚ) (t : CapTick) (st : SmoothState)
    (samples : List ℚ) (h : ∀ x ∈ samples, 0 < x) :
    ∀ x ∈ (cap_step raw t st samples).1, 0 < x := by
  obtain ⟨tstop, tjoints⟩ := t
  cases tjoints with
  | none => simpa [cap_step] using h
  | some j =>
      obtain ⟨j1, j2, j3⟩ := j
      simp only [cap_step]
      cases hr : (calc_angle_3d raw j1 j2 j3 "calibration" st).1 with
      | nan => simpa using h
      | fin a =>
          by_cases ha : 0 < a
          · simp only [if_pos ha]
            intro x hx
            rcases List.mem_append.mp hx with hx | hx
            · exact h x hx
            · rw [List.mem_singleton.mp hx]
              exact ha
          · simp only [if_neg ha]
            simpa using h

/-- C7: every retained calibration sample is strictly positive (non-positive
angles are discarded as invalid), and a sampling window that yields zero
valid samples — in either the max or the min window — makes the measurement
fall back to its clinically-normal default max and min while
`run_calibration` continues with the remaining measurements: the result is
the defaults entry consed onto whatever the remaining measurements produce,
never an abort. -/
theorem claim7_invalid_samples_fallback :
    (∀ (raw : Vec3 → Vec3 → ℚ) (d : ℕ) (ticks : List CapTick)
        (st : SmoothState) (samples : List ℚ),
      (∀ x ∈ samples, 0 < x) →
      ∀ ss st' n, capture_loop raw d ticks st samples = (some ss, st', n) →
      ∀ x ∈ ss, 0 < x) ∧
    (∀ (raw : Vec3 → Vec3 → ℚ) (d : ℕ) (m : MeasSpec) (ms : List MeasSpec)
        (st st1 : SmoothState) (n : ℕ),
      m.stopAtBoundary = false →
      capture_loop raw d m.maxWin st [] = (some [], st1, n) →
      run_calibration raw d (m :: ms) st =
        Option.map (fun rest => (m.normal_max, m.normal_min) :: rest)
          (run_calibration raw d ms st1)) ∧
    (∀ (raw : Vec3 → Vec3 → ℚ) (d : ℕ) (m : MeasSpec) (ms : List MeasSpec)
        (st st1 st2 : SmoothState) (mx : ℚ) (n1 n2 : ℕ),
      m.stopAtBoundary = false →
      capture_angle raw true d m.maxWin st = (some mx, st1, n1) →
      capture_loop raw d m.minWin st1 [] = (some [], st2, n2) →
      run_calibration raw d (m :: ms) st =
        Option.map (fun rest => (m.normal_max, m.normal_min) :: rest)
          (run_calibration raw d ms st2)) := by
  refine ⟨?_, ?_, ?_⟩
  · intro raw d
    induction d with
    | zero =>
        intro ticks st samples h ss st' n hrun
        cases hrun
        exact h
    | succ k ih =>
        intro ticks st samples h ss st' n hrun
        cases ticks with
        | nil =>
            cases hrun
            exact h
        | cons t ts =>
            by_cases hs : t.stop = true
            · simp only [capture_loop, hs, if_true] at hrun
              cases hrun
            · simp only [capture_loop, hs, if_false] at hrun
              have hpos := cap_step_pos raw t st samples h
              cases hloop : capture_loop raw k ts (cap_step raw t st samples).2
                  (cap_step raw t st samples).1 with
              | mk r1 r23 =>
                  rw [hloop] at hrun
                  cases hrun
                  exact ih ts _ _ hpos ss r23.1 r23.2 (by rw [hloop])
  · intro raw d m ms st st1 n hstop hloop
    simp only [run_calibration, hstop, Bool.false_eq_true, if_false,
      measure_rom, capture_angle, hloop]
    cases hr : run_calibration raw d ms st1 <;> simp [hr]
  · intro raw d m ms st st1 st2 mx n1 n2 hstop hmax hminloop
    simp only [run_calibration, hstop, Bool.false_eq_true, if_false]
    unfold measure_rom
    rw [hmax]
    simp only [capture_angle, hminloop]
    cases hr : run_calibration raw d ms st2 <;> simp [hr]

/-- C7 witness: a 1-tick window with no skeleton data collects zero valid
samples, and the measurement for it falls back to its defaults (150, 5)
while the (empty) remainder of the calibration run proceeds; the positivity
invariant holds for its (empty) sample list. -/
theorem claim7_witness :
    run_calibration (fun _ _ => 0) 1
        [{ normal_max := 150, normal_min := 5, stopAtBoundary := false,
           maxWin := [{ stop := false, joints := none }], minWin := [] }] [] =
      Option.map (fun rest => ((150 : ℚ), (5 : ℚ)) :: rest)
        (run_calibration (fun _ _ => 0) 1 [] []) ∧
    (∀ x ∈ ([] : List ℚ), (0 : ℚ) < x) :=
  ⟨claim7_invalid_samples_fallback.2.1 (fun _ _ => 0) 1
      { normal_max := 150, normal_min := 5, stopAtBoundary := false,
        maxWin := [{ stop := false, joints := none }], minWin := [] } [] [] [] 1
      rfl (by decide),
   claim7_invalid_samples_fallback.1 (fun _ _ => 0) 1
      [{ stop := false, joints := none }] [] [] (fun x hx => absurd hx (by simp))
      [] [] 1 (by decide)⟩

/-! ## Claim C10 supporting lemmas -/

/-- A tick without usable skeleton data changes nothing. -/
theorem cap_step_none (raw : Vec3 → Vec3 → ℚ) (t : CapTick) (st : SmoothState)
    (samples : List ℚ) (h : t.joints = none) :
    cap_step raw t st samples = (samples, st) := by
  obtain ⟨a, b⟩ := t
  cases b with
  | none => rfl
  | some j => simp at h

/-- A tick with a non-degenerate triple and a stored finite previous angle:
the clamped angle is stored, and its rounding is appended iff positive. -/
theorem cap_step_fin (raw : Vec3 → Vec3 → ℚ) (t : CapTick) (st : SmoothState)
    (samples : List ℚ) (p : ℚ) (j1 j2 j3 : Vec3)
    (ht : t.joints = some (j1, j2, j3))
    (hstore : lookupSlot st "calibration" = some (F.fin p))
    (h1 : normSq (vsub j1 j2) ≠ 0) (h2 : normSq (vsub j3 j2) ≠ 0) :
    cap_step raw t st samples =
      (if 0 < round2 (qlimit (raw (vsub j1 j2) (vsub j3 j2)) p) then
        samples ++ [round2 (qlimit (raw (vsub j1 j2) (vsub j3 j2)) p)]
       else samples,
       updateAssoc st "calibration"
         (F.fin (qlimit (raw (vsub j1 j2) (vsub j3 j2)) p))) := by
  obtain ⟨a, b⟩ := t
  cases b with
  | none => simp at ht
  | some j =>
      have hj : j = (j1, j2, j3) := by simpa using ht
      subst hj
      simp only [cap_step]
      rw [calc_angle_3d_fin_prev raw j1 j2 j3 "calibration" st p hstore h1 h2]

/-- A capture tick touches no smoothing slot other than `"calibration"`. -/
theorem cap_step_other_slot (raw : Vec3 → Vec3 → ℚ) (t : CapTick)
    (st : SmoothState) (samples : List ℚ) (k : String)
    (h : k ≠ "calibration") :
    lookupSlot (cap_step raw t st samples).2 k = lookupSlot st k := by
  obtain ⟨a, b⟩ := t
  cases b with
  | none => rfl
  | some j =>
      obtain ⟨j1, j2, j3⟩ := j
      exact lookup_updateAssoc_ne st "calibration" k _ h

/-- A capture tick never clears the `"calibration"` slot. -/
theorem cap_step_slot_kept (raw : Vec3 → Vec3 → ℚ) (t : CapTick)
    (st : SmoothState) (samples : List ℚ) (v : F)
    (h : lookupSlot st "calibration" = some v) :
    ∃ w, lookupSlot (cap_step raw t st samples).2 "calibration" = some w := by
  obtain ⟨a, b⟩ := t
  cases b with
  | none => exact ⟨v, h⟩
  | some j =>
      obtain ⟨j1, j2, j3⟩ := j
      exact ⟨_, lookup_updateAssoc_self st "calibration" _⟩

/-- The whole sampling window touches no smoothing slot other than
`"calibration"`. -/
theorem capture_loop_other_slot (raw : Vec3 → Vec3 → ℚ) :
    ∀ (d : ℕ) (ticks : List CapTick) (st : SmoothState) (samples : List ℚ)
      (k : String), k ≠ "calibration" →
      lookupSlot (capture_loop raw d ticks st samples).2.1 k =
        lookupSlot st k := by
  intro d
  induction d with
  | zero =>
      intro ticks st samples k _
      rfl
  | succ n ih =>
      intro ticks st samples k hk
      cases ticks with
      | nil => rfl
      | cons t ts =>
          cases hs : t.stop with
          | true => simp [capture_loop, hs]
          | false =>
              simp only [capture_loop, hs, Bool.false_eq_true, if_false]
              rw [ih ts _ _ k hk, cap_step_other_slot raw t st samples k hk]

/-- The whole sampling window never clears the `"calibration"` slot. -/
theorem capture_loop_slot_kept (raw : Vec3 → Vec3 → ℚ) :
    ∀ (d : ℕ) (ticks : List CapTick) (st : SmoothState) (samples : List ℚ)
      (v : F), lookupSlot st "calibration" = some v →
      ∃ w, lookupSlot (capture_loop raw d ticks st samples).2.1 "calibration" =
        some w := by
  intro d
  induction d with
  | zero =>
      intro ticks st samples v h
      exact ⟨v, h⟩
  | succ n ih =>
      intro ticks st samples v h
      cases ticks with
      | nil => exact ⟨v, h⟩
      | cons t ts =>
          cases hs : t.stop with
          | true =>
              refine ⟨v, ?_⟩
              simpa [capture_loop, hs] using h
          | false =>
              simp only [capture_loop, hs, Bool.false_eq_true, if_false]
              obtain ⟨w, hw⟩ := cap_step_slot_kept raw t st samples v h
              exact ih ts _ _ w hw

/-- The collected samples extend the accumulator. -/
theorem cap_step_acc (raw : Vec3 → Vec3 → ℚ) (t : CapTick) (st : SmoothState)
    (samples : List ℚ) :
    ∃ e, (cap_step raw t st samples).1 = samples ++ e := by
  obtain ⟨a, b⟩ := t
  cases b with
  | none => exact ⟨[], by simp [cap_step]⟩
  | some j =>
      obtain ⟨j1, j2, j3⟩ := j
      simp only [cap_step]
      cases (calc_angle_3d raw j1 j2 j3 "calibration" st).1 with
      | nan => exact ⟨[], by simp⟩
      | fin q =>
          by_cases hq : 0 < q
          · exact ⟨[q], by simp [hq]⟩
          · exact ⟨[], by simp [hq]⟩

/-- A successful window's sample list extends the accumulator it started
from. -/
theorem capture_loop_acc (raw : Vec3 → Vec3 → ℚ) :
    ∀ (d : ℕ) (ticks : List CapTick) (st : SmoothState) (samples : List ℚ)
      (ss : List ℚ) (st' : SmoothState) (n : ℕ),
      capture_loop raw d ticks st samples = (some ss, st', n) →
      ∃ ext, ss = samples ++ ext := by
  intro d
  induction d with
  | zero =>
      intro ticks st samples ss st' n hrun
      cases hrun
      exact ⟨[], by simp⟩
  | succ k ih =>
      intro ticks st samples ss st' n hrun
      cases ticks with
      | nil =>
          cases hrun
          exact ⟨[], by simp⟩
      | cons t ts =>
          cases hs : t.stop with
          | true =>
              simp only [capture_loop, hs, if_true] at hrun
              cases hrun
          | false =>
              simp only [capture_loop, hs, Bool.false_eq_true, if_false] at hrun
              cases hinner : capture_loop raw k ts (cap_step raw t st samples).2
                  (cap_step raw t st samples).1 with
              | mk i1 i2 =>
                  rw [hinner] at hrun
                  have h1 : i1 = some ss := congrArg Prod.fst hrun
                  subst h1
                  obtain ⟨e0, he0⟩ := cap_step_acc raw t st samples
                  obtain ⟨ext, hext⟩ := ih ts _ _ ss i2.1 i2.2
                    (by rw [hinner])
                  rw [he0] at hext
                  exact ⟨e0 ++ ext, by simpa using hext⟩

end Gymmy

namespace Gymmy

/-- Once every sample so far has been discarded and the stored angle rounds
to a non-positive value, the first retained sample of the rest of the window
lies in `(0, 10]`: each clamped step can raise the stored angle by at most
10, and a sample is retained exactly when its rounding is positive. -/
theorem capture_loop_first_sample_small (raw : Vec3 → Vec3 → ℚ)
    (hraw : ∀ ba bc, 0 ≤ raw ba bc) :
    ∀ (d : ℕ) (ticks : List CapTick) (st : SmoothState) (p : ℚ),
      lookupSlot st "calibration" = some (F.fin p) → 0 ≤ p → round2 p ≤ 0 →
      (∀ t ∈ ticks, t.stop = false) →
      (∀ t ∈ ticks, ∀ j1 j2 j3, t.joints = some (j1, j2, j3) →
        normSq (vsub j1 j2) ≠ 0 ∧ normSq (vsub j3 j2) ≠ 0) →
      ∀ (ss : List ℚ) (st' : SmoothState) (n : ℕ) (s : ℚ),
        capture_loop raw d ticks st [] = (some ss, st', n) →
        ss.head? = some s → 0 < s ∧ s ≤ max_angle_jump := by
  intro d
  induction d with
  | zero =>
      intro ticks st p _ _ _ _ _ ss st' n s hrun hhead
      cases hrun
      simp at hhead
  | succ k ih =>
      intro ticks st p hstore hp hp2 hstop hdeg ss st' n s hrun hhead
      cases ticks with
      | nil =>
          cases hrun
          simp at hhead
      | cons t ts =>
          have hs : t.stop = false := hstop t (by simp)
          simp only [capture_loop, hs, Bool.false_eq_true, if_false] at hrun
          cases ht : t.joints with
          | none =>
              rw [cap_step_none raw t st [] ht] at hrun
              cases hinner : capture_loop raw k ts st [] with
              | mk i1 i2 =>
                  rw [hinner] at hrun
                  have h1 : i1 = some ss := congrArg Prod.fst hrun
                  subst h1
                  exact ih ts st p hstore hp hp2
                    (fun u hu => hstop u (by simp [hu]))
                    (fun u hu => hdeg u (by simp [hu])) ss i2.1 i2.2 s
                    (by rw [hinner]) hhead
          | some j =>
              obtain ⟨j1, j2, j3⟩ := j
              obtain ⟨h1, h2⟩ := hdeg t (by simp) j1 j2 j3 ht
              rw [cap_step_fin raw t st [] p j1 j2 j3 ht hstore h1 h2] at hrun
              have hc0 : 0 ≤ qlimit (raw (vsub j1 j2) (vsub j3 j2)) p :=
                qlimit_nonneg (hraw _ _) hp
              have hcd := qlimit_dist (raw (vsub j1 j2) (vsub j3 j2)) p
              have hm : max_angle_jump = (10 : ℚ) := rfl
              by_cases hpos :
                  0 < round2 (qlimit (raw (vsub j1 j2) (vsub j3 j2)) p)
              · rw [if_pos hpos] at hrun
                cases hinner : capture_loop raw k ts
                    (updateAssoc st "calibration"
                      (F.fin (qlimit (raw (vsub j1 j2) (vsub j3 j2)) p)))
                    ([] ++ [round2 (qlimit (raw (vsub j1 j2) (vsub j3 j2)) p)])
                    with
                | mk i1 i2 =>
                    rw [hinner] at hrun
                    have he1 : i1 = some ss := congrArg Prod.fst hrun
                    subst he1
                    obtain ⟨ext, hext⟩ := capture_loop_acc raw k ts _ _ ss
                      i2.1 i2.2 (by rw [hinner])
                    have hss : ss =
                        round2 (qlimit (raw (vsub j1 j2) (vsub j3 j2)) p)
                          :: ext := by simpa using hext
                    have hsval : s =
                        round2 (qlimit (raw (vsub j1 j2) (vsub j3 j2)) p) := by
                      rw [hss] at hhead
                      simpa using hhead.symm
                    constructor
                    · rw [hsval]; exact hpos
                    · rw [hsval, hm]
                      have hb : qlimit (raw (vsub j1 j2) (vsub j3 j2)) p ≤
                          p + 10 := by
                        have := abs_le.mp hcd
                        rw [hm] at this
                        linarith [this.2]
                      calc round2 (qlimit (raw (vsub j1 j2) (vsub j3 j2)) p)
                          ≤ round2 (p + 10) := round2_mono hb
                        _ = round2 p + 10 := round2_add_ten p
                        _ ≤ 10 := by linarith
              · rw [if_neg hpos] at hrun
                cases hinner : capture_loop raw k ts
                    (updateAssoc st "calibration"
                      (F.fin (qlimit (raw (vsub j1 j2) (vsub j3 j2)) p))) []
                    with
                | mk i1 i2 =>
                    rw [hinner] at hrun
                    have he1 : i1 = some ss := congrArg Prod.fst hrun
                    subst he1
                    exact ih ts _ (qlimit (raw (vsub j1 j2) (vsub j3 j2)) p)
                      (lookup_updateAssoc_self st "calibration" _) hc0
                      (le_of_not_lt hpos)
                      (fun u hu => hstop u (by simp [hu]))
                      (fun u hu => hdeg u (by simp [hu])) ss i2.1 i2.2 s
                      (by rw [hinner]) hhead

/-- The first sample a window retains lies within 10 degrees of the rounding
of the angle stored in the `"calibration"` slot when the window started —
i.e. of the value returned by the last angle computation of the preceding
measurement. -/
theorem capture_loop_first_sample (raw : Vec3 → Vec3 → ℚ)
    (hraw : ∀ ba bc, 0 ≤ raw ba bc) :
    ∀ (d : ℕ) (ticks : List CapTick) (st : SmoothState) (p : ℚ),
      lookupSlot st "calibration" = some (F.fin p) → 0 ≤ p →
      (∀ t ∈ ticks, t.stop = false) →
      (∀ t ∈ ticks, ∀ j1 j2 j3, t.joints = some (j1, j2, j3) →
        normSq (vsub j1 j2) ≠ 0 ∧ normSq (vsub j3 j2) ≠ 0) →
      ∀ (ss : List ℚ) (st' : SmoothState) (n : ℕ) (s : ℚ),
        capture_loop raw d ticks st [] = (some ss, st', n) →
        ss.head? = some s → |s - round2 p| ≤ max_angle_jump := by
  intro d
  induction d with
  | zero =>
      intro ticks st p _ _ _ _ ss st' n s hrun hhead
      cases hrun
      simp at hhead
  | succ k ih =>
      intro ticks st p hstore hp hstop hdeg ss st' n s hrun hhead
      cases ticks with
      | nil =>
          cases hrun
          simp at hhead
      | cons t ts =>
          have hs : t.stop = false := hstop t (by simp)
          simp only [capture_loop, hs, Bool.false_eq_true, if_false] at hrun
          cases ht : t.joints with
          | none =>
              rw [cap_step_none raw t st [] ht] at hrun
              cases hinner : capture_loop raw k ts st [] with
              | mk i1 i2 =>
                  rw [hinner] at hrun
                  have h1 : i1 = some ss := congrArg Prod.fst hrun
                  subst h1
                  exact ih ts st p hstore hp
                    (fun u hu => hstop u (by simp [hu]))
                    (fun u hu => hdeg u (by simp [hu])) ss i2.1 i2.2 s
                    (by rw [hinner]) hhead
          | some j =>
              obtain ⟨j1, j2, j3⟩ := j
              obtain ⟨h1, h2⟩ := hdeg t (by simp) j1 j2 j3 ht
              rw [cap_step_fin raw t st [] p j1 j2 j3 ht hstore h1 h2] at hrun
              have hc0 : 0 ≤ qlimit (raw (vsub j1 j2) (vsub j3 j2)) p :=
                qlimit_nonneg (hraw _ _) hp
              have hcd := qlimit_dist (raw (vsub j1 j2) (vsub j3 j2)) p
              have hm : max_angle_jump = (10 : ℚ) := rfl
              have hclose := round2_close (show
                  |qlimit (raw (vsub j1 j2) (vsub j3 j2)) p - p| ≤ 10 by
                rw [hm] at hcd; exact hcd)
              by_cases hpos :
                  0 < round2 (qlimit (raw (vsub j1 j2) (vsub j3 j2)) p)
              · rw [if_pos hpos] at hrun
                cases hinner : capture_loop raw k ts
                    (updateAssoc st "calibration"
                      (F.fin (qlimit (raw (vsub j1 j2) (vsub j3 j2)) p)))
                    ([] ++ [round2 (qlimit (raw (vsub j1 j2) (vsub j3 j2)) p)])
                    with
                | mk i1 i2 =>
                    rw [hinner] at hrun
                    have he1 : i1 = some ss := congrArg Prod.fst hrun
                    subst he1
                    obtain ⟨ext, hext⟩ := capture_loop_acc raw k ts _ _ ss
                      i2.1 i2.2 (by rw [hinner])
                    have hss : ss =
                        round2 (qlimit (raw (vsub j1 j2) (vsub j3 j2)) p)
                          :: ext := by simpa using hext
                    have hsval : s =
                        round2 (qlimit (raw (vsub j1 j2) (vsub j3 j2)) p) := by
                      rw [hss] at hhead
                      simpa using hhead.symm
                    rw [hsval, hm]
                    exact hclose
              · rw [if_neg hpos] at hrun
                cases hinner : capture_loop raw k ts
                    (updateAssoc st "calibration"
                      (F.fin (qlimit (raw (vsub j1 j2) (vsub j3 j2)) p))) []
                    with
                | mk i1 i2 =>
                    rw [hinner] at hrun
                    have he1 : i1 = some ss := congrArg Prod.fst hrun
                    subst he1
                    have hsmall := capture_loop_first_sample_small raw hraw k ts
                      (updateAssoc st "calibration"
                        (F.fin (qlimit (raw (vsub j1 j2) (vsub j3 j2)) p)))
                      (qlimit (raw (vsub j1 j2) (vsub j3 j2)) p)
                      (lookup_updateAssoc_self st "calibration" _) hc0
                      (le_of_not_lt hpos)
                      (fun u hu => hstop u (by simp [hu]))
                      (fun u hu => hdeg u (by simp [hu])) ss i2.1 i2.2 s
                      (by rw [hinner]) hhead
                    have hr2p : 0 ≤ round2 p := round2_nonneg hp
                    have hup : round2 p ≤ 10 := by
                      have := abs_le.mp hclose
                      have hc2 : round2 (qlimit (raw (vsub j1 j2)
                          (vsub j3 j2)) p) ≤ 0 := le_of_not_lt hpos
                      linarith [this.1]
                    rw [hm] at hsmall ⊢
                    rw [abs_le]
                    constructor <;> linarith [hsmall.1, hsmall.2]

/-! ## Claim C8 -/

/-- C8 (code bug): after the same patient and exercise are saved in two dated
sessions, `load_from_excel` returns the values of the OLDEST session, not the
most recent one: it sorts the rows newest-first and then overwrites the
dictionary entry on every row it visits, so the last (oldest) row wins.
Here the January session (100/10/90/20) is returned even though the June
session (150/5/140/15) is more recent. -/
theorem claim8_oldest_session_wins :
    dateLt rowOld.date rowNew.date = true ∧
    load_from_excel [rowOld, rowNew] "p1" =
      some [("ball_bend_elbows",
        { right_max := 100, right_min := 10, left_max := 90, left_min := 20 })] ∧
    ({ right_max := 100, right_min := 10, left_max := 90, left_min := 20 } : ExRanges) ≠
      { right_max := 150, right_min := 5, left_max := 140, left_min := 15 } := by
  refine ⟨by decide, by decide, by decide⟩

/-! ## Claim C10 -/

/-- C10: every angle sampled during full-protocol calibration goes through
the single shared smoothing slot `"calibration"`: a sampling window (i) never
touches any other slot, (ii) never clears the slot once it holds a stored
angle, and (iii) once a previous finite angle `p` is stored in the slot —
by the preceding measurement's last computation, whose returned value was
`round2 p` — the first sample retained by any subsequent window (for any
joint triple) is jump-limited to within 10 degrees of that returned value.
Hypotheses of (iii): the raw geometric angles are nonnegative (degrees of an
arccos) and the window's frames are stop-free with non-degenerate triples. -/
theorem claim10_single_shared_slot :
    (∀ (raw : Vec3 → Vec3 → ℚ) (d : ℕ) (ticks : List CapTick)
        (st : SmoothState) (samples : List ℚ) (k : String),
      k ≠ "calibration" →
      lookupSlot (capture_loop raw d ticks st samples).2.1 k =
        lookupSlot st k) ∧
    (∀ (raw : Vec3 → Vec3 → ℚ) (d : ℕ) (ticks : List CapTick)
        (st : SmoothState) (samples : List ℚ) (v : F),
      lookupSlot st "calibration" = some v →
      ∃ w, lookupSlot (capture_loop raw d ticks st samples).2.1 "calibration" =
        some w) ∧
    (∀ (raw : Vec3 → Vec3 → ℚ), (∀ ba bc, 0 ≤ raw ba bc) →
      ∀ (d : ℕ) (ticks : List CapTick) (st : SmoothState) (p : ℚ),
      lookupSlot st "calibration" = some (F.fin p) → 0 ≤ p →
      (∀ t ∈ ticks, t.stop = false) →
      (∀ t ∈ ticks, ∀ j1 j2 j3, t.joints = some (j1, j2, j3) →
        normSq (vsub j1 j2) ≠ 0 ∧ normSq (vsub j3 j2) ≠ 0) →
      ∀ (ss : List ℚ) (st' : SmoothState) (n : ℕ) (s : ℚ),
        capture_loop raw d ticks st [] = (some ss, st', n) →
        ss.head? = some s → |s - round2 p| ≤ max_angle_jump) :=
  ⟨capture_loop_other_slot, capture_loop_slot_kept, capture_loop_first_sample⟩

/-- C10 witness: a window opening on a slot holding 170 (stored by the
previous measurement) whose first tick measures a raw 165: the first sample
is 165, within 10 degrees of `round2 170 = 170`; all three parts of the
theorem are applied at this concrete window. -/
theorem claim10_witness :
    |(165 : ℚ) - round2 170| ≤ max_angle_jump ∧
    lookupSlot (capture_loop (fun _ _ => (165 : ℚ)) 4
        [{ stop := false, joints := some (jointA, jointB, jointC) }]
        [("calibration", F.fin 170)] []).2.1 "R_1" =
      lookupSlot [("calibration", F.fin 170)] "R_1" ∧
    (∃ w, lookupSlot (capture_loop (fun _ _ => (165 : ℚ)) 4
        [{ stop := false, joints := some (jointA, jointB, jointC) }]
        [("calibration", F.fin 170)] []).2.1 "calibration" = some w) := by
  have habs : |(165 : ℚ) - 170| = 5 := by
    rw [show ((165 : ℚ) - 170) = -5 by norm_num, abs_neg,
      abs_of_nonneg (by norm_num)]
  have hq : qlimit 165 170 = (165 : ℚ) := by
    unfold qlimit
    rw [habs, if_neg (by norm_num [max_angle_jump])]
  have hround : round2 (165 : ℚ) = 165 := by
    unfold round2
    norm_num [round_eq]
  have hstep : cap_step (fun _ _ => (165 : ℚ))
      { stop := false, joints := some (jointA, jointB, jointC) }
      [("calibration", F.fin 170)] [] =
      ([165], [("calibration", F.fin 165)]) := by
    rw [cap_step_fin (fun _ _ => (165 : ℚ))
      { stop := false, joints := some (jointA, jointB, jointC) }
      [("calibration", F.fin 170)] [] 170 jointA jointB jointC rfl
      (by simp [lookupSlot])
      (by norm_num [normSq, vsub, jointA, jointB])
      (by norm_num [normSq, vsub, jointC, jointB])]
    simp [hq, hround, updateAssoc]
  have hrun : capture_loop (fun _ _ => (165 : ℚ)) 4
      [{ stop := false, joints := some (jointA, jointB, jointC) }]
      [("calibration", F.fin 170)] [] =
      (some [165], [("calibration", F.fin 165)], 1) := by
    show capture_loop (fun _ _ => (165 : ℚ)) (3 + 1)
      ({ stop := false, joints := some (jointA, jointB, jointC) } :: [])
      [("calibration", F.fin 170)] [] = _
    simp only [capture_loop, Bool.false_eq_true, if_false]
    rw [hstep]
  refine ⟨?_, ?_, ?_⟩
  · exact claim10_single_shared_slot.2.2 (fun _ _ => (165 : ℚ))
      (fun _ _ => by norm_num) 4
      [{ stop := false, joints := some (jointA, jointB, jointC) }]
      [("calibration", F.fin 170)] 170 (by simp [lookupSlot]) (by norm_num)
      (by
        intro t htm
        simp only [List.mem_singleton] at htm
        subst htm
        rfl)
      (by
        intro t htm j1 j2 j3 hj
        simp only [List.mem_singleton] at htm
        subst htm
        have hj' : some (jointA, jointB, jointC) = some (j1, j2, j3) := hj
        injection hj' with h
        injection h with ha hbc
        injection hbc with hb hcv
        subst ha
        subst hb
        subst hcv
        exact ⟨by norm_num [normSq, vsub, jointA, jointB],
               by norm_num [normSq, vsub, jointC, jointB]⟩)
      [165] [("calibration", F.fin 165)] 1 165 hrun rfl
  · exact claim10_single_shared_slot.1 (fun _ _ => (165 : ℚ)) 4
      [{ stop := false, joints := some (jointA, jointB, jointC) }]
      [("calibration", F.fin 170)] [] "R_1" (by decide)
  · exact claim10_single_shared_slot.2.1 (fun _ _ => (165 : ℚ)) 4
      [{ stop := false, joints := some (jointA, jointB, jointC) }]
      [("calibration", F.fin 170)] [] (F.fin 170) (by simp [lookupSlot])

/-! ## Claim C9 -/

/-- C9 (code bug): during simplified-protocol calibration of one exercise,
the camera's state machine never writes `s.calibration_ranges`, so after the
patient completes one repetition (primary angles reaching 30 and then 170 on
both sides) `calibrate_one_exercise` returns the sentinel initialisation
0/180/0/180 — not the running max/min of the observed angles, which the
spec's range-tracking description would make 170/30/170/30. -/
theorem claim9_sentinel_ranges :
    calibrate_one_exercise twoAngleParams 5 (List.map angleTick [30, 170]) =
      some calibration_ranges_init ∧
    calibrationRangesPerSpec (List.map angleTick [30, 170]) =
      { right_max := 170, right_min := 30, left_max := 170, left_min := 30 } ∧
    calibration_ranges_init ≠
      { right_max := 170, right_min := 30, left_max := 170, left_min := 30 } := by
  refine ⟨by decide, by decide, by decide⟩

end Gymmy
